import Mathlib

/-!
Verification of the archive torrent downloader (`src/ia.py`) against its
specification.  The Python source is shallowly embedded: every network call is
an oracle parameter (the response the call would produce), the filesystem is an
explicit value threaded through the functions, and Python exceptions are
modelled with `Except`.  The external library function `fuzzywuzzy.fuzz`
`partial_ratio` is not part of this repository; it is modelled as an abstract
score parameter `prScore : String → String → Nat`.
-/

set_option maxHeartbeats 1000000

namespace IA

/-- Model of a JSON value, as produced by `response.json()`. -/
inductive Json where
  | null
  | bool (b : Bool)
  | num (n : Int)
  | str (s : String)
  | arr (elems : List Json)
  | obj (fields : List (String × Json))

/-- Model of Python `str.lower()`: character-wise lowering. -/
def strToLower (s : String) : String :=
  String.mk (s.data.map Char.toLower)

/-- Model of Python `str.endswith(suffix)`. -/
def strEndsWith (s suffix : String) : Bool :=
  List.isSuffixOf suffix.data s.data

/-- Model of Python `needle in hay` for strings (substring containment). -/
def strContainsSub (needle hay : String) : Bool :=
  hay.data.tails.any (fun t => List.isPrefixOf needle.data t)

/-- Helper for `splitWhitespace`: accumulates the current (reversed) word. -/
def splitWsAux : List Char → List Char → List (List Char)
  | acc, [] => if acc.isEmpty then [] else [acc.reverse]
  | acc, c :: cs =>
    if c.isWhitespace then
      if acc.isEmpty then splitWsAux [] cs else acc.reverse :: splitWsAux [] cs
    else splitWsAux (c :: acc) cs

/-- Model of Python `str.split()` with no argument: split on runs of
whitespace, dropping empty pieces. -/
def splitWhitespace (s : String) : List String :=
  (splitWsAux [] s.data).map String.mk

/-- Helper for `lastSegment`: computes `url.split('/')[-1]` in one pass. -/
def lastSegAux : List Char → List Char → List Char
  | acc, [] => acc
  | acc, c :: cs => if c = '/' then lastSegAux [] cs else lastSegAux (acc ++ [c]) cs

/-- Model of Python `url.split('/')[-1]`: the substring after the last `/`
(the whole string when there is no `/`). -/
def lastSegment (url : String) : String :=
  String.mk (lastSegAux [] url.data)

/-- Whether a string starts with `/` (used by `pathJoin`). -/
def startsWithSlash (s : String) : Bool :=
  match s.data with
  | c :: _ => c == '/'
  | [] => false

/-- Whether a string ends with `/`. -/
def hasTrailingSlash (s : String) : Bool :=
  match s.data.reverse with
  | c :: _ => c == '/'
  | [] => false

/-- Model of POSIX `os.path.join(a, b)` for two components. -/
def pathJoin (a b : String) : String :=
  if startsWithSlash b then b
  else if a.data.isEmpty || hasTrailingSlash a then a ++ b
  else a ++ "/" ++ b

/-- Strips every trailing `/` from a path (used to model the way
`os.path.exists` resolves a trailing separator against a directory). -/
def dropTrailingSlashes (p : String) : String :=
  String.mk ((p.data.reverse.dropWhile (fun c => c == '/')).reverse)

/-- Explicit filesystem state: the set of existing directories and the
existing regular files with their byte contents. -/
structure FS where
  dirs : List String
  files : List (String × List Nat)
deriving DecidableEq

/-- Whether `p` names an existing regular file. -/
def FS.isFile (fs : FS) (p : String) : Bool :=
  (fs.files.lookup p).isSome

/-- Whether `p` names an existing directory. -/
def FS.isDir (fs : FS) (p : String) : Bool :=
  fs.dirs.contains p

/-- Model of `os.path.exists`: a file or directory with that exact name, or a
directory named by the path with its trailing separators removed. -/
def FS.pathExists (fs : FS) (p : String) : Bool :=
  fs.isFile p || fs.isDir p || (hasTrailingSlash p && fs.isDir (dropTrailingSlashes p))

/-- Model of `open(p, 'wb')` followed by writing `b`: creates or overwrites
the file at `p`. -/
def FS.write (fs : FS) (p : String) (b : List Nat) : FS :=
  ⟨fs.dirs, (p, b) :: fs.files⟩

end IA

namespace IA

/-- Result of one `requests.get(url, stream=True, timeout=10)` call inside
`download_file`: either a response with a status code and body bytes, or a
raised exception (timeout, transport fault, ...). -/
inductive HttpResult where
  | response (statusCode : Nat) (body : List Nat)
  | exc (msg : String)
deriving DecidableEq

/-- The error recorded by a failed download attempt: a non-200 status code or
a caught exception message. -/
inductive DlError where
  | statusErr (code : Nat)
  | excErr (msg : String)
deriving DecidableEq

/-- Terminal result of one `download_file` call: the file already existed, the
download succeeded, or all attempts failed. -/
inductive DownloadOutcome where
  | skipped (path : String)
  | succeeded (path : String) (body : List Nat)
  | failed (url : String) (lastError : Option DlError)
deriving DecidableEq

/-- The error a fetch attempt would record, given the raw HTTP result. -/
def attemptError : HttpResult → DlError
  | .response code _ => .statusErr code
  | .exc m => .excErr m

/-- Whether an HTTP result is a status-200 response (the only case
`download_file` treats as success: `if response.status_code == 200`). -/
def isOk200 : HttpResult → Bool
  | .response code _ => code == 200
  | .exc _ => false

/-- One iteration of the body of `download_file`'s retry loop
(`src/ia.py` lines 47-61): on a status-200 response the body is streamed to
the destination file and the call returns; a non-200 status or a raised
exception is logged and recorded as the attempt's error. -/
def attemptFetch (r : HttpResult) (path : String) (fs : FS) :
    Sum DownloadOutcome DlError × FS :=
  match r with
  | .response code body =>
    if code = 200 then (Sum.inl (DownloadOutcome.succeeded path body), fs.write path body)
    else (Sum.inr (DlError.statusErr code), fs)
  | .exc m => (Sum.inr (DlError.excErr m), fs)

/-- The retry loop of `download_file` (`for attempt in range(retries)`).
`fetch i` is the HTTP result of the `i`-th attempt; the `Nat` in the result
counts the network calls performed. -/
def downloadLoop (fetch : Nat → HttpResult) (url path : String) :
    FS → Nat → Nat → Option DlError → DownloadOutcome × FS × Nat
  | fs, 0, _, last => (DownloadOutcome.failed url last, fs, 0)
  | fs, n + 1, i, _ =>
    match attemptFetch (fetch i) path fs with
    | (Sum.inl o, fs') => (o, fs', 1)
    | (Sum.inr e, fs') =>
      let r := downloadLoop fetch url path fs' n (i + 1) (some e)
      (r.1, r.2.1, r.2.2 + 1)

/-- Model of `download_file(url, dest_folder, retries)` (`src/ia.py` 39-65):
computes the destination filename, returns `skipped` without any network call
when it already exists, and otherwise runs the retry loop.  Returns the
outcome, the resulting filesystem, and the number of network calls made. -/
def download_file (fetch : Nat → HttpResult) (url dest_folder : String)
    (fs : FS) (retries : Nat) : DownloadOutcome × FS × Nat :=
  let filename := pathJoin dest_folder (lastSegment url)
  if fs.pathExists filename then (DownloadOutcome.skipped filename, fs, 0)
  else downloadLoop fetch url filename fs retries 0 none

/-- The loop body of `match_terms` (`src/ia.py` 87-90): returns `false` as
soon as one term scores below the threshold. -/
def match_termsGo (prScore : String → String → Nat) (textLower : String)
    (threshold : Nat) : List String → Bool
  | [] => true
  | t :: ts =>
    if prScore t textLower < threshold then false
    else match_termsGo prScore textLower threshold ts

/-- Model of `match_terms(text, keyword, threshold)` (`src/ia.py` 85-90).
`prScore` abstracts the external `fuzz.partial_ratio`; the keyword is
lower-cased and split on whitespace, and every term must score at least
`threshold` against the lower-cased text.  The source default threshold
is 70. -/
def match_terms (prScore : String → String → Nat) (text keyword : String)
    (threshold : Nat) : Bool :=
  match_termsGo prScore (strToLower text) threshold (splitWhitespace (strToLower keyword))

/-- Model of Python `j[k]` on a JSON value: key lookup on an object, raising
`KeyError` when the key is absent and `TypeError` on a non-object. -/
def jsonIndex (j : Json) (k : String) : Except String Json :=
  match j with
  | .obj fields =>
    match fields.lookup k with
    | some v => .ok v
    | none => .error "KeyError"
  | _ => .error "TypeError"

/-- Python `j[k]` followed by use of the value as a string (the source
immediately calls `str` methods such as `.endswith` on it, which raises
`AttributeError` on a non-string). -/
def jsonIndexStr (j : Json) (k : String) : Except String String :=
  match jsonIndex j k with
  | .error e => .error e
  | .ok (.str s) => .ok s
  | .ok _ => .error "AttributeError"

/-- Whether a JSON element equals the Python string `k` (element-wise `==`
against a string is true only for an equal string). -/
def jsonIsStrEq (j : Json) (k : String) : Bool :=
  match j with
  | .str s => s == k
  | _ => false

/-- Model of Python `k in j`: key membership on an object, element membership
on an array, substring test on a string, `TypeError` otherwise. -/
def jsonMember (k : String) (j : Json) : Except String Bool :=
  match j with
  | .obj fields => .ok (fields.lookup k).isSome
  | .arr xs => .ok (xs.any (fun x => jsonIsStrEq x k))
  | .str s => .ok (strContainsSub k s)
  | _ => .error "TypeError"

/-- Model of Python `dict.get(k, d)`: raises `AttributeError` on a
non-object. -/
def dictGetD (j : Json) (k : String) (d : Json) : Except String Json :=
  match j with
  | .obj fields => .ok ((fields.lookup k).getD d)
  | _ => .error "AttributeError"

/-- Model of iterating a JSON value as a Python list. -/
def asArr (j : Json) : Except String (List Json) :=
  match j with
  | .arr xs => .ok xs
  | _ => .error "TypeError"

/-- Model of `search_items(query, rows)` (`src/ia.py` 68-82).  `resp` is the
result of `requests.get(search_url, timeout=10)` followed by JSON parsing: an
exception message, or the status code with the parsed body.  Every failure
(transport, `raise_for_status` on a 4xx/5xx status, or a `.get` on a
non-object) is caught and turned into the normally returned empty list.
`requests`' `raise_for_status` raises exactly for status codes in 400-599;
any other status (including 600 and above) proceeds to parsing. -/
def search_items (resp : Except String (Nat × Json)) : Json :=
  match resp with
  | .error _ => Json.arr []
  | .ok (status, body) =>
    if 400 ≤ status ∧ status < 600 then Json.arr []
    else
      match dictGetD body "response" (Json.obj []) with
      | .error _ => Json.arr []
      | .ok r =>
        match dictGetD r "docs" (Json.arr []) with
        | .error _ => Json.arr []
        | .ok docs => docs

end IA

namespace IA

/-- The comprehension `[file for file in metadata['files'] if
file['name'].endswith('.torrent')]` (`src/ia.py` 102).  Evaluated
left-to-right; the first entry whose `name` cannot be read as a string raises
out of the comprehension. -/
def filterSuffix : List Json → Except String (List Json)
  | [] => .ok []
  | f :: rest =>
    match jsonIndexStr f "name" with
    | .error e => .error e
    | .ok name =>
      match filterSuffix rest with
      | .error e => .error e
      | .ok l => .ok (if strEndsWith name ".torrent" then f :: l else l)

/-- The comprehension `[file for file in torrent_files if
match_terms(file['name'], keyword)]` (`src/ia.py` 104), with the source's
default threshold 70. -/
def filterKeyword (prScore : String → String → Nat) (kw : String) :
    List Json → Except String (List Json)
  | [] => .ok []
  | f :: rest =>
    match jsonIndexStr f "name" with
    | .error e => .error e
    | .ok name =>
      match filterKeyword prScore kw rest with
      | .error e => .error e
      | .ok l => .ok (if match_terms prScore name kw 70 then f :: l else l)

/-- The two filtering steps of `download_torrent` applied to the entries of
the metadata `files` array.  `if keyword:` is Python truthiness: `None` and
the empty string both skip the keyword filter. -/
def torrentFilesOf (prScore : String → String → Nat) (keyword : Option String)
    (entries : List Json) : Except String (List Json) :=
  match filterSuffix entries with
  | .error e => .error e
  | .ok l1 =>
    match keyword with
    | none => .ok l1
    | some kw => if kw.data.isEmpty then .ok l1 else filterKeyword prScore kw l1

/-- The metadata-resolution part of `download_torrent` (`src/ia.py` 97-104):
fetch and parse the metadata document, check the status, test `'files' in
metadata`, and filter the entries.  `.ok none` is the `'files'`-absent branch
(warning, not an error); any raised exception is an `.error`.  As in
`search_items`, `raise_for_status` raises exactly for status codes in
400-599; any other status proceeds to the `files` processing. -/
def resolveTorrents (metaResp : Except String (Nat × Json))
    (prScore : String → String → Nat) (keyword : Option String) :
    Except String (Option (List Json)) :=
  match metaResp with
  | .error e => .error e
  | .ok (status, metadata) =>
    if 400 ≤ status ∧ status < 600 then .error "HTTPError"
    else
      match jsonMember "files" metadata with
      | .error e => .error e
      | .ok false => .ok none
      | .ok true =>
        match jsonIndex metadata "files" with
        | .error e => .error e
        | .ok filesJ =>
          match asArr filesJ with
          | .error e => .error e
          | .ok entries =>
            match torrentFilesOf prScore keyword entries with
            | .error e => .error e
            | .ok tfs => .ok (some tfs)

/-- The download URL built in `download_torrent`'s loop (`src/ia.py` 109). -/
def downloadUrl (identifier name : String) : String :=
  "https://archive.org/download/" ++ identifier ++ "/" ++ name

/-- Result of the download loop over the matched files: outcomes in order,
the final filesystem, total network calls, the file names for which
`download_file` was invoked, and the exception (if any) that aborted the
loop. -/
structure FilesResult where
  outcomes : List DownloadOutcome
  fs : FS
  dlCalls : Nat
  enqueued : List String
  err : Option String
deriving DecidableEq

/-- The loop `for file in torrent_files:` of `download_torrent`
(`src/ia.py` 108-110): each file's URL is built from its `name` and passed to
`download_file` with the configured directory and retry count. -/
def downloadFiles (fetch : String → Nat → HttpResult) (identifier dir : String)
    (retries : Nat) : FS → List Json → FilesResult
  | fs, [] => ⟨[], fs, 0, [], none⟩
  | fs, f :: rest =>
    match jsonIndexStr f "name" with
    | .error e => ⟨[], fs, 0, [], some e⟩
    | .ok name =>
      let url := downloadUrl identifier name
      let r := download_file (fetch url) url dir fs retries
      let t := downloadFiles fetch identifier dir retries r.2.1 rest
      ⟨r.1 :: t.outcomes, t.fs, r.2.2 + t.dlCalls, name :: t.enqueued, t.err⟩

/-- Events observable from `download_torrent`: the warning logged when the
metadata has no `files` key, the warning logged when no torrent matches, and
the error logged when an exception is caught. -/
inductive Ev where
  | warnNoFiles (identifier : String)
  | warnNoMatch (identifier : String) (keyword : Option String)
  | errMeta (identifier : String) (msg : String)
deriving DecidableEq

/-- Everything observable from one `download_torrent` call. -/
structure TorrentResult where
  outcomes : List DownloadOutcome
  fs : FS
  events : List Ev
  dlCalls : Nat
  enqueued : List String
deriving DecidableEq

/-- Model of `download_torrent(identifier, keyword)` (`src/ia.py` 93-116).
`metaResp` is the metadata GET's result; `fetch url i` is the result of the
`i`-th download attempt for `url`.  The whole body is wrapped in
`try/except`, so the function never raises: a caught exception becomes an
`errMeta` event and the metadata phase performs no downloads. -/
def download_torrent (metaResp : Except String (Nat × Json))
    (prScore : String → String → Nat) (fetch : String → Nat → HttpResult)
    (identifier : String) (keyword : Option String) (dir : String)
    (retries : Nat) (fs : FS) : TorrentResult :=
  match resolveTorrents metaResp prScore keyword with
  | .error e => ⟨[], fs, [Ev.errMeta identifier e], 0, []⟩
  | .ok none => ⟨[], fs, [Ev.warnNoFiles identifier], 0, []⟩
  | .ok (some tfs) =>
    let warn : List Ev :=
      if tfs.isEmpty then [Ev.warnNoMatch identifier keyword] else []
    let fr := downloadFiles fetch identifier dir retries fs tfs
    ⟨fr.outcomes, fr.fs,
     warn ++ (match fr.err with | some e => [Ev.errMeta identifier e] | none => []),
     fr.dlCalls, fr.enqueued⟩

/-- Everything observable from one `main` call, under the sequential model of
the worker pool (workers are independent; submission order is preserved).
`ret` is the Python return value of `main`: the function has no `return`
statement, so it is always `none` -- `some outcomes` would model a function
returning the outcome list. -/
structure MainResult where
  ret : Option (List DownloadOutcome)
  submissions : List (String × Option String)
  progress : Nat
  outcomes : List DownloadOutcome
  fs : FS
  events : List Ev
  dlCalls : Nat
deriving DecidableEq

/-- The loop `for item in items:` of `main` (`src/ia.py` 124-127):
`item['identifier']` is read (an uncaught `KeyError`/`TypeError` propagates
out of `main`), the work unit is submitted, and the progress bar advances
once per submission. -/
def mainLoop (metaOf : String → Except String (Nat × Json))
    (prScore : String → String → Nat) (fetch : String → Nat → HttpResult)
    (keyword : Option String) (dir : String) (retries : Nat) :
    FS → List Json → Except String MainResult
  | fs, [] => .ok ⟨none, [], 0, [], fs, [], 0⟩
  | fs, item :: rest =>
    match jsonIndexStr item "identifier" with
    | .error e => .error e
    | .ok identifier =>
      let tr := download_torrent (metaOf identifier) prScore fetch identifier keyword dir retries fs
      match mainLoop metaOf prScore fetch keyword dir retries tr.fs rest with
      | .error e => .error e
      | .ok r =>
        .ok ⟨none, (identifier, keyword) :: r.submissions, r.progress + 1,
             tr.outcomes ++ r.outcomes, r.fs, tr.events ++ r.events,
             tr.dlCalls + r.dlCalls⟩

/-- Model of `main(query, num_items, keyword)` (`src/ia.py` 119-127):
`search_items` is called once (its failures yield an empty item list) and
each item is processed.  The Python function returns `None` (`ret = none`). -/
def main (searchResp : Except String (Nat × Json))
    (metaOf : String → Except String (Nat × Json))
    (prScore : String → String → Nat) (fetch : String → Nat → HttpResult)
    (keyword : Option String) (dir : String) (retries : Nat) (fs : FS) :
    Except String MainResult :=
  match asArr (search_items searchResp) with
  | .error e => .error e
  | .ok docs => mainLoop metaOf prScore fetch keyword dir retries fs docs

/-- The identifiers of the search documents, in order, paired with the
keyword: the submissions `main` performs. -/
def submittedOf (keyword : Option String) : List Json → Except String (List (String × Option String))
  | [] => .ok []
  | item :: rest =>
    match jsonIndexStr item "identifier" with
    | .error e => .error e
    | .ok identifier =>
      match submittedOf keyword rest with
      | .error e => .error e
      | .ok l => .ok ((identifier, keyword) :: l)

/-- Modelled from the spec: the Download Orchestrator contract
`Run(query, numItems, keyword?) -> list<DownloadOutcome>` -- the outcomes of
all processed files aggregated in submission order.  The source `main`
returns `None` and aggregates nothing; this definition follows the spec's
words so the two can be compared. -/
def RunSpec (searchResp : Except String (Nat × Json))
    (metaOf : String → Except String (Nat × Json))
    (prScore : String → String → Nat) (fetch : String → Nat → HttpResult)
    (keyword : Option String) (dir : String) (retries : Nat) (fs : FS) :
    Except String (List DownloadOutcome) :=
  match main searchResp metaOf prScore fetch keyword dir retries fs with
  | .error e => .error e
  | .ok r => .ok r.outcomes

/-- Concrete fixture: a search response with one document `{identifier: "it1"}`. -/
def exSearchOk : Except String (Nat × Json) :=
  Except.ok (200, Json.obj
    [("response", Json.obj [("docs", Json.arr [Json.obj [("identifier", Json.str "it1")]])])])

/-- Concrete fixture: every item's metadata holds one file named `a.torrent`. -/
def exMetaOk : String → Except String (Nat × Json) :=
  fun _ => Except.ok (200, Json.obj
    [("files", Json.arr [Json.obj [("name", Json.str "a.torrent")]])])

/-- Concrete fixture: a metadata document with files `ab.torrent` and
`cd.torrent`. -/
def exMeta2 : Except String (Nat × Json) :=
  Except.ok (200, Json.obj
    [("files", Json.arr [Json.obj [("name", Json.str "ab.torrent")],
                         Json.obj [("name", Json.str "cd.torrent")]])])

/-- Concrete fixture: a fetcher whose every attempt answers status 200 with
body `[1, 2]`. -/
def exFetch200 : String → Nat → HttpResult :=
  fun _ _ => HttpResult.response 200 [1, 2]

/-- Concrete fixture: a score function giving every pair score 0. -/
def prZero : String → String → Nat := fun _ _ => 0

/-- Concrete fixture: a crude partial-ratio-like scorer, 100 when the term is
a substring of the text and 0 otherwise. -/
def prContains : String → String → Nat :=
  fun t txt => if strContainsSub t txt then 100 else 0

/-- Concrete fixture: a filesystem with one empty directory `d`. -/
def fsD : FS := FS.mk ["d"] []

/-- Concrete fixture: the `MainResult` of running `main` on `exSearchOk`,
`exMetaOk`, `exFetch200` with no keyword over `fsD`. -/
def exMainRes : MainResult :=
  ⟨none, [("it1", none)], 1, [DownloadOutcome.succeeded "d/a.torrent" [1, 2]],
   FS.mk ["d"] [("d/a.torrent", [1, 2])], [], 1⟩

end IA

namespace IA

theorem attemptFetch_not200 (r : HttpResult) (path : String) (fs : FS)
    (h : isOk200 r = false) : attemptFetch r path fs = (Sum.inr (attemptError r), fs) := by
  cases r with
  | response code body =>
    simp only [isOk200, beq_eq_false_iff_ne, ne_eq] at h
    simp [attemptFetch, attemptError, h]
  | exc m => rfl

theorem downloadLoop_allFail (fetch : Nat → HttpResult) (url path : String) :
    ∀ (n i : Nat) (fs : FS) (last : Option DlError),
      (∀ j, j < n → isOk200 (fetch (i + j)) = false) →
      downloadLoop fetch url path fs n i last =
        (DownloadOutcome.failed url
           (if n = 0 then last else some (attemptError (fetch (i + n - 1)))), fs, n) := by
  intro n
  induction n with
  | zero => intro i fs last _; simp [downloadLoop]
  | succ m ih =>
    intro i fs last h
    have h0 : isOk200 (fetch i) = false := by simpa using h 0 (Nat.succ_pos m)
    have hrec := ih (i + 1) fs (some (attemptError (fetch i))) (fun j hj => by
      have := h (j + 1) (Nat.succ_lt_succ hj)
      simpa [Nat.add_assoc, Nat.add_comm, Nat.add_left_comm] using this)
    simp only [downloadLoop, attemptFetch_not200 (fetch i) path fs h0]
    rw [hrec]
    cases m with
    | zero => simp
    | succ k =>
      have hidx : i + 1 + (k + 1) - 1 = i + (k + 1 + 1) - 1 := by omega
      simp [hidx]

theorem downloadLoop_cases (fetch : Nat → HttpResult) (url path : String) :
    ∀ (n i : Nat) (fs : FS) (last : Option DlError),
      (∃ e, (downloadLoop fetch url path fs n i last).1 = DownloadOutcome.failed url e ∧
            (downloadLoop fetch url path fs n i last).2.1 = fs) ∨
      (∃ b, (downloadLoop fetch url path fs n i last).1 = DownloadOutcome.succeeded path b ∧
            (downloadLoop fetch url path fs n i last).2.1 = FS.write fs path b) := by
  intro n
  induction n with
  | zero => intro i fs last; exact Or.inl ⟨last, rfl, rfl⟩
  | succ m ih =>
    intro i fs last
    cases hr : fetch i with
    | response code body =>
      by_cases hc : code = 200
      · subst hc
        exact Or.inr ⟨body, by simp [downloadLoop, hr, attemptFetch],
          by simp [downloadLoop, hr, attemptFetch]⟩
      · have hred : downloadLoop fetch url path fs (m + 1) i last =
            (let r := downloadLoop fetch url path fs m (i + 1) (some (DlError.statusErr code))
             (r.1, r.2.1, r.2.2 + 1)) := by
          simp [downloadLoop, hr, attemptFetch, hc]
        rw [hred]
        exact ih (i + 1) fs (some (DlError.statusErr code))
    | exc msg =>
      have hred : downloadLoop fetch url path fs (m + 1) i last =
          (let r := downloadLoop fetch url path fs m (i + 1) (some (DlError.excErr msg))
           (r.1, r.2.1, r.2.2 + 1)) := by
        simp [downloadLoop, hr, attemptFetch]
      rw [hred]
      exact ih (i + 1) fs (some (DlError.excErr msg))

theorem pathExists_write_self (fs : FS) (p : String) (b : List Nat) :
    (fs.write p b).pathExists p = true := by
  simp [FS.write, FS.pathExists, FS.isFile, List.lookup]

theorem match_termsGo_iff (prScore : String → String → Nat) (textLower : String)
    (threshold : Nat) (l : List String) :
    match_termsGo prScore textLower threshold l = true ↔
      ∀ t ∈ l, threshold ≤ prScore t textLower := by
  induction l with
  | nil => simp [match_termsGo]
  | cons t ts ih =>
    by_cases hlt : prScore t textLower < threshold
    · constructor
      · intro h
        rw [match_termsGo, if_pos hlt] at h
        exact absurd h (by simp)
      · intro h
        exact absurd (h t (by simp)) (Nat.not_le.mpr hlt)
    · have hle : threshold ≤ prScore t textLower := Nat.not_lt.mp hlt
      rw [match_termsGo, if_neg hlt]
      simp [ih, hle]

theorem toLower_whitespace (c : Char) (h : c.isWhitespace = true) : c.toLower = c := by
  simp only [Char.isWhitespace, Bool.or_eq_true, decide_eq_true_eq] at h
  rcases h with ((h | h) | h) | h <;> subst h <;> decide

theorem splitWsAux_all_ws : ∀ (l : List Char), (∀ c ∈ l, c.isWhitespace = true) →
    splitWsAux [] l = [] := by
  intro l
  induction l with
  | nil => intro _; rfl
  | cons c cs ih =>
    intro h
    have hc : c.isWhitespace = true := h c (by simp)
    simp only [splitWsAux, hc, if_true, List.isEmpty]
    exact ih (fun x hx => h x (by simp [hx]))

theorem match_terms_blank_keyword (prScore : String → String → Nat) (text keyword : String)
    (threshold : Nat) (h : ∀ c ∈ keyword.data, c.isWhitespace = true) :
    match_terms prScore text keyword threshold = true := by
  have hl : ∀ c ∈ (strToLower keyword).data, c.isWhitespace = true := by
    intro c hc
    simp only [strToLower, List.mem_map] at hc
    obtain ⟨c0, hc0, rfl⟩ := hc
    rw [toLower_whitespace c0 (h c0 hc0)]
    exact h c0 hc0
  have hsplit : splitWhitespace (strToLower keyword) = [] := by
    rw [splitWhitespace, splitWsAux_all_ws _ hl]
    rfl
  rw [match_terms, hsplit]
  rfl

end IA

namespace IA

theorem filterSuffix_mem : ∀ (l l' : List Json), filterSuffix l = Except.ok l' →
    ∀ f ∈ l', ∃ nm, jsonIndexStr f "name" = Except.ok nm ∧
      strEndsWith nm ".torrent" = true := by
  intro l
  induction l with
  | nil =>
    intro l' h f hf
    rw [filterSuffix] at h
    injection h with h
    subst h
    simp at hf
  | cons g rest ih =>
    intro l' h f hf
    rw [filterSuffix] at h
    cases hn : jsonIndexStr g "name" with
    | error e => rw [hn] at h; exact absurd h (by simp)
    | ok nm =>
      rw [hn] at h
      cases hrest : filterSuffix rest with
      | error e => rw [hrest] at h; exact absurd h (by simp)
      | ok lr =>
        rw [hrest] at h
        injection h with h
        by_cases hs : strEndsWith nm ".torrent" = true
        · rw [if_pos hs] at h
          subst h
          rcases List.mem_cons.mp hf with rfl | hf'
          · exact ⟨nm, hn, hs⟩
          · exact ih lr hrest f hf'
        · rw [if_neg hs] at h
          subst h
          exact ih lr hrest f hf

theorem filterKeyword_mem (prScore : String → String → Nat) (kw : String) :
    ∀ (l l' : List Json), filterKeyword prScore kw l = Except.ok l' →
    ∀ f ∈ l', f ∈ l ∧ ∃ nm, jsonIndexStr f "name" = Except.ok nm ∧
      match_terms prScore nm kw 70 = true := by
  intro l
  induction l with
  | nil =>
    intro l' h f hf
    rw [filterKeyword] at h
    injection h with h
    subst h
    simp at hf
  | cons g rest ih =>
    intro l' h f hf
    rw [filterKeyword] at h
    cases hn : jsonIndexStr g "name" with
    | error e => rw [hn] at h; exact absurd h (by simp)
    | ok nm =>
      rw [hn] at h
      cases hrest : filterKeyword prScore kw rest with
      | error e => rw [hrest] at h; exact absurd h (by simp)
      | ok lr =>
        rw [hrest] at h
        injection h with h
        by_cases hs : match_terms prScore nm kw 70 = true
        · rw [if_pos hs] at h
          subst h
          rcases List.mem_cons.mp hf with rfl | hf'
          · exact ⟨List.mem_cons_self .., nm, hn, hs⟩
          · obtain ⟨hmem, hprop⟩ := ih lr hrest f hf'
            exact ⟨List.mem_cons_of_mem g hmem, hprop⟩
        · rw [if_neg hs] at h
          subst h
          obtain ⟨hmem, hprop⟩ := ih lr hrest f hf
          exact ⟨List.mem_cons_of_mem g hmem, hprop⟩

theorem match_terms_empty_keyword (prScore : String → String → Nat) (text : String)
    (threshold : Nat) : match_terms prScore text "" threshold = true := rfl

theorem torrentFilesOf_mem (prScore : String → String → Nat) (kw : String) :
    ∀ (entries tfs : List Json),
    torrentFilesOf prScore (some kw) entries = Except.ok tfs →
    ∀ f ∈ tfs, ∃ nm, jsonIndexStr f "name" = Except.ok nm ∧
      strEndsWith nm ".torrent" = true ∧ match_terms prScore nm kw 70 = true := by
  intro entries tfs h f hf
  rw [torrentFilesOf] at h
  cases h1 : filterSuffix entries with
  | error e => rw [h1] at h; exact absurd h (by simp)
  | ok l1 =>
    rw [h1] at h
    dsimp only at h
    by_cases hkw : kw.data.isEmpty = true
    · rw [if_pos hkw] at h
      injection h with h
      subst h
      obtain ⟨nm, hnm, hsf⟩ := filterSuffix_mem entries l1 h1 f hf
      have hempty : kw = "" := by
        cases kw with
        | mk d =>
          simp only [List.isEmpty_iff] at hkw
          simp [hkw]
      subst hempty
      exact ⟨nm, hnm, hsf, match_terms_empty_keyword prScore nm 70⟩
    · rw [if_neg hkw] at h
      obtain ⟨hmem, nm, hnm, hmt⟩ := filterKeyword_mem prScore kw l1 tfs h f hf
      obtain ⟨nm', hnm', hsf⟩ := filterSuffix_mem entries l1 h1 f hmem
      rw [hnm'] at hnm
      injection hnm with hnm
      subst hnm
      exact ⟨nm', hnm', hsf, hmt⟩

theorem resolveTorrents_some (metaResp : Except String (Nat × Json))
    (prScore : String → String → Nat) (keyword : Option String) (tfs : List Json)
    (h : resolveTorrents metaResp prScore keyword = Except.ok (some tfs)) :
    ∃ entries, torrentFilesOf prScore keyword entries = Except.ok tfs := by
  unfold resolveTorrents at h
  cases metaResp with
  | error e => exact absurd h (by simp)
  | ok p =>
    obtain ⟨status, metadata⟩ := p
    dsimp only at h
    by_cases hst : 400 ≤ status ∧ status < 600
    · rw [if_pos hst] at h; exact absurd h (by simp)
    · rw [if_neg hst] at h
      cases hm : jsonMember "files" metadata with
      | error e => rw [hm] at h; exact absurd h (by simp)
      | ok b =>
        rw [hm] at h
        cases b with
        | false => exact absurd h (by simp)
        | true =>
          dsimp only at h
          cases hidx : jsonIndex metadata "files" with
          | error e => rw [hidx] at h; exact absurd h (by simp)
          | ok filesJ =>
            rw [hidx] at h
            dsimp only at h
            cases harr : asArr filesJ with
            | error e => rw [harr] at h; exact absurd h (by simp)
            | ok entries =>
              rw [harr] at h
              dsimp only at h
              cases htf : torrentFilesOf prScore keyword entries with
              | error e => rw [htf] at h; exact absurd h (by simp)
              | ok tfs' =>
                rw [htf] at h
                dsimp only at h
                injection h with h
                injection h with h
                subst h
                exact ⟨entries, htf⟩

theorem downloadFiles_mem (fetch : String → Nat → HttpResult)
    (identifier dir : String) (retries : Nat) :
    ∀ (l : List Json) (fs : FS) (nm : String),
    nm ∈ (downloadFiles fetch identifier dir retries fs l).enqueued →
    ∃ f ∈ l, jsonIndexStr f "name" = Except.ok nm := by
  intro l
  induction l with
  | nil => intro fs nm h; simp [downloadFiles] at h
  | cons g rest ih =>
    intro fs nm h
    rw [downloadFiles] at h
    cases hn : jsonIndexStr g "name" with
    | error e => rw [hn] at h; simp at h
    | ok name =>
      rw [hn] at h
      simp only [List.mem_cons] at h
      rcases h with rfl | h
      · exact ⟨g, by simp, hn⟩
      · obtain ⟨f, hf, hnm⟩ := ih _ nm h
        exact ⟨f, by simp [hf], hnm⟩

end IA

namespace IA

theorem lastSegAux_slash : ∀ (xs acc : List Char), lastSegAux acc (xs ++ ['/']) = [] := by
  intro xs
  induction xs with
  | nil =>
    intro acc
    simp [lastSegAux]
  | cons x xs ih =>
    intro acc
    by_cases hx : x = '/'
    · simp [lastSegAux, hx, ih]
    · simp [lastSegAux, hx, ih]

theorem hasTrailingSlash_data (s : String) (h : hasTrailingSlash s = true) :
    ∃ xs, s.data = xs ++ ['/'] := by
  unfold hasTrailingSlash at h
  cases hrev : s.data.reverse with
  | nil => rw [hrev] at h; exact absurd h (by simp)
  | cons c t =>
    rw [hrev] at h
    dsimp only at h
    have hc : c = '/' := by simpa using h
    subst hc
    refine ⟨t.reverse, ?_⟩
    have hr := congrArg List.reverse hrev
    simpa using hr

theorem lastSegment_slash (url : String) (h : hasTrailingSlash url = true) :
    lastSegment url = "" := by
  obtain ⟨xs, hxs⟩ := hasTrailingSlash_data url h
  rw [lastSegment, hxs, lastSegAux_slash]

theorem dropTrailing_append_slash (dir : String) (hne : dir.data ≠ [])
    (hts : hasTrailingSlash dir = false) : dropTrailingSlashes (dir ++ "/") = dir := by
  cases hrev : dir.data.reverse with
  | nil => exact absurd (by simpa using congrArg List.reverse hrev) hne
  | cons c t =>
    have hcf : (c == '/') = false := by
      unfold hasTrailingSlash at hts
      rw [hrev] at hts
      exact hts
    have hd : (dir ++ "/").data.reverse = '/' :: c :: t := by
      rw [String.data_append, List.reverse_append, hrev]
      rfl
    have hdw : List.dropWhile (fun x => x == '/') ('/' :: c :: t) = c :: t := by
      simp [List.dropWhile, hcf]
    rw [dropTrailingSlashes, hd, hdw]
    have hback : (c :: t).reverse = dir.data := by
      rw [← hrev, List.reverse_reverse]
    rw [hback]

theorem pathJoin_empty_right (dir : String) (hne : dir.data ≠ [])
    (hts : hasTrailingSlash dir = false) : pathJoin dir "" = dir ++ "/" := by
  have h0 : startsWithSlash "" = false := rfl
  have h1 : dir.data.isEmpty = false := by
    cases hd : dir.data with
    | nil => exact absurd hd hne
    | cons a b => rfl
  rw [pathJoin, h0, h1, hts]
  simp [String.append_empty]

theorem pathExists_dirSlash (fs : FS) (dir : String) (hne : dir.data ≠ [])
    (hts : hasTrailingSlash dir = false) (hdir : fs.isDir dir = true) :
    fs.pathExists (dir ++ "/") = true := by
  have h1 : hasTrailingSlash (dir ++ "/") = true := by
    unfold hasTrailingSlash
    rw [String.data_append, List.reverse_append]
    rfl
  rw [FS.pathExists, h1, dropTrailing_append_slash dir hne hts, hdir]
  simp

theorem mainLoop_ok (metaOf : String → Except String (Nat × Json))
    (prScore : String → String → Nat) (fetch : String → Nat → HttpResult)
    (keyword : Option String) (dir : String) (retries : Nat) :
    ∀ (docs : List Json) (fs : FS) (r : MainResult),
      mainLoop metaOf prScore fetch keyword dir retries fs docs = Except.ok r →
      r.ret = none ∧ r.progress = r.submissions.length ∧
      submittedOf keyword docs = Except.ok r.submissions := by
  intro docs
  induction docs with
  | nil =>
    intro fs r h
    rw [mainLoop] at h
    injection h with h
    subst h
    exact ⟨rfl, rfl, rfl⟩
  | cons item rest ih =>
    intro fs r h
    rw [mainLoop] at h
    cases hid : jsonIndexStr item "identifier" with
    | error e => rw [hid] at h; exact absurd h (by simp)
    | ok identifier =>
      rw [hid] at h
      dsimp only at h
      cases hrec : mainLoop metaOf prScore fetch keyword dir retries
          (download_torrent (metaOf identifier) prScore fetch identifier keyword dir retries fs).fs
          rest with
      | error e => rw [hrec] at h; exact absurd h (by simp)
      | ok r' =>
        rw [hrec] at h
        injection h with h
        subst h
        obtain ⟨h1, h2, h3⟩ := ih _ r' hrec
        refine ⟨rfl, ?_, ?_⟩
        · simp [h2]
        · rw [submittedOf, hid, h3]

end IA

namespace IA

/-- Claim C1, as amended: when the computed destination path already exists,
`download_file` returns `skipped` immediately with no network call and an
unchanged filesystem; and whenever a first run returned `succeeded` or
`skipped`, a second run against the resulting filesystem returns `skipped`
and leaves the file contents unchanged. -/
theorem claim_C1_theorem :
    (∀ (fetch : Nat → HttpResult) (url dir : String) (fs : FS) (retries : Nat),
        FS.pathExists fs (pathJoin dir (lastSegment url)) = true →
        download_file fetch url dir fs retries =
          (DownloadOutcome.skipped (pathJoin dir (lastSegment url)), fs, 0)) ∧
    (∀ (fetch fetch2 : Nat → HttpResult) (url dir : String) (fs : FS) (r1 r2 : Nat),
        ((∃ p b, (download_file fetch url dir fs r1).1 = DownloadOutcome.succeeded p b) ∨
         (∃ p, (download_file fetch url dir fs r1).1 = DownloadOutcome.skipped p)) →
        download_file fetch2 url dir (download_file fetch url dir fs r1).2.1 r2 =
          (DownloadOutcome.skipped (pathJoin dir (lastSegment url)),
           (download_file fetch url dir fs r1).2.1, 0)) := by
  constructor
  · intro fetch url dir fs retries h
    simp [download_file, h]
  · intro fetch fetch2 url dir fs r1 r2 hout
    by_cases hex : FS.pathExists fs (pathJoin dir (lastSegment url)) = true
    · have h1 : download_file fetch url dir fs r1 =
          (DownloadOutcome.skipped (pathJoin dir (lastSegment url)), fs, 0) := by
        simp [download_file, hex]
      rw [h1]
      simp [download_file, hex]
    · have hloop : download_file fetch url dir fs r1 =
          downloadLoop fetch url (pathJoin dir (lastSegment url)) fs r1 0 none := by
        simp [download_file, hex]
      rcases downloadLoop_cases fetch url (pathJoin dir (lastSegment url)) r1 0 fs none with
        ⟨e, he, hfs⟩ | ⟨b, hb, hfs⟩
      · rw [hloop] at hout
        rcases hout with ⟨p, b, hpb⟩ | ⟨p, hp⟩
        · rw [he] at hpb; exact absurd hpb (by simp)
        · rw [he] at hp; exact absurd hp (by simp)
      · rw [hloop, hfs]
        simp [download_file, pathExists_write_self]

/-- Claim C1 counterexample: with a server that always answers status 500 the
first run returns `failed` and writes nothing, so the second run is again
`failed` after three more attempts -- not `skipped` as the claim states for
all URLs. -/
theorem claim_C1_counterexample :
    (download_file (fun _ => HttpResult.response 500 []) "http://x/a.torrent" "d"
        (FS.mk ["d"] []) 3).2.1 = FS.mk ["d"] [] ∧
    (download_file (fun _ => HttpResult.response 500 []) "http://x/a.torrent" "d"
        (download_file (fun _ => HttpResult.response 500 []) "http://x/a.torrent" "d"
          (FS.mk ["d"] []) 3).2.1 3) =
      (DownloadOutcome.failed "http://x/a.torrent" (some (DlError.statusErr 500)),
       FS.mk ["d"] [], 3) := by
  exact ⟨by decide, by decide⟩

/-- Claim C1 witness: a file already on disk is skipped with no network call,
and a second run after a successful first download is skipped. -/
theorem claim_C1_witness :
    (FS.pathExists (FS.mk ["d"] [("d/a.torrent", [1])]) "d/a.torrent" = true ∧
     download_file (fun _ => HttpResult.exc "net") "http://x/a.torrent" "d"
         (FS.mk ["d"] [("d/a.torrent", [1])]) 3 =
       (DownloadOutcome.skipped "d/a.torrent", FS.mk ["d"] [("d/a.torrent", [1])], 0)) ∧
    download_file (fun _ => HttpResult.exc "net") "http://x/a.torrent" "d"
        (download_file (fun _ => HttpResult.response 200 [1, 2]) "http://x/a.torrent" "d"
          (FS.mk ["d"] []) 3).2.1 3 =
      (DownloadOutcome.skipped "d/a.torrent",
       (download_file (fun _ => HttpResult.response 200 [1, 2]) "http://x/a.torrent" "d"
         (FS.mk ["d"] []) 3).2.1, 0) := by
  constructor
  · exact ⟨by decide, claim_C1_theorem.1 _ _ _ _ _ (by decide)⟩
  · exact claim_C1_theorem.2 _ _ _ _ _ _ _ (Or.inl ⟨"d/a.torrent", [1, 2], by decide⟩)

/-- Claim C2: `match_terms` returns true iff every whitespace-separated term
of the lower-cased keyword scores at least the threshold (under the abstract
partial-ratio scorer) against the lower-cased candidate text. -/
theorem claim_C2_theorem : ∀ (prScore : String → String → Nat) (text keyword : String)
    (threshold : Nat),
    match_terms prScore text keyword threshold = true ↔
      ∀ term ∈ splitWhitespace (strToLower keyword),
        threshold ≤ prScore term (strToLower text) := by
  intro prScore text keyword threshold
  rw [match_terms]
  exact match_termsGo_iff prScore (strToLower text) threshold
    (splitWhitespace (strToLower keyword))

/-- Claim C3: when the destination does not exist and every attempt fails,
`download_file` performs exactly `retries` network calls and returns `failed`
carrying the last observed error. -/
theorem claim_C3_theorem : ∀ (fetch : Nat → HttpResult) (url dir : String) (fs : FS)
    (retries : Nat),
    FS.pathExists fs (pathJoin dir (lastSegment url)) = false →
    0 < retries →
    (∀ i, i < retries → isOk200 (fetch i) = false) →
    download_file fetch url dir fs retries =
      (DownloadOutcome.failed url (some (attemptError (fetch (retries - 1)))), fs, retries) := by
  intro fetch url dir fs retries hne hpos hfail
  have hall := downloadLoop_allFail fetch url (pathJoin dir (lastSegment url)) retries 0 fs none
    (by intro j hj; simpa using hfail j hj)
  rw [if_neg (Nat.pos_iff_ne_zero.mp hpos)] at hall
  simp only [Nat.zero_add] at hall
  have hdf : download_file fetch url dir fs retries =
      downloadLoop fetch url (pathJoin dir (lastSegment url)) fs retries 0 none := by
    simp [download_file, hne]
  rw [hdf, hall]

/-- Claim C3 witness: three attempts against a server that always answers 500
make exactly 3 calls and fail with the last status error. -/
theorem claim_C3_witness :
    (FS.pathExists (FS.mk ["d"] []) "d/a.torrent" = false ∧ 0 < 3) ∧
    download_file (fun _ => HttpResult.response 500 []) "http://x/a.torrent" "d"
        (FS.mk ["d"] []) 3 =
      (DownloadOutcome.failed "http://x/a.torrent" (some (DlError.statusErr 500)),
       FS.mk ["d"] [], 3) := by
  refine ⟨⟨by decide, by decide⟩, ?_⟩
  exact claim_C3_theorem _ _ _ _ _ (by decide) (by decide) (fun i _ => rfl)

/-- Claim C4, as amended: a failing search (raised transport or parse error,
or a 4xx/5xx status -- the 400-599 range `raise_for_status` raises for)
yields an empty result returned normally after logging; `main` then processes
no identifiers and completes without error, so no terminal error is
propagated to the caller. -/
theorem claim_C4_theorem : ∀ (e : String) (metaOf : String → Except String (Nat × Json))
    (prScore : String → String → Nat) (fetch : String → Nat → HttpResult)
    (keyword : Option String) (dir : String) (retries : Nat) (fs : FS),
    (search_items (Except.error e) = Json.arr [] ∧
     main (Except.error e) metaOf prScore fetch keyword dir retries fs =
       Except.ok ⟨none, [], 0, [], fs, [], 0⟩) ∧
    ∀ (status : Nat) (body : Json), 400 ≤ status → status < 600 →
      search_items (Except.ok (status, body)) = Json.arr [] ∧
      main (Except.ok (status, body)) metaOf prScore fetch keyword dir retries fs =
        Except.ok ⟨none, [], 0, [], fs, [], 0⟩ := by
  intro e metaOf prScore fetch keyword dir retries fs
  refine ⟨⟨rfl, rfl⟩, ?_⟩
  intro status body hst4 hst6
  have hs : search_items (Except.ok (status, body)) = Json.arr [] := by
    simp [search_items, hst4, hst6]
  refine ⟨hs, ?_⟩
  unfold main
  rw [hs]
  rfl

/-- Claim C4 counterexample: on a raised connection error, `search_items`
returns the empty list as a normal value and `main` completes with `ok` --
no identifiers processed, no error propagated -- contradicting the claimed
terminal, propagated error. -/
theorem claim_C4_counterexample :
    search_items (Except.error "ConnectionError") = Json.arr [] ∧
    main (Except.error "ConnectionError") (fun _ => Except.error "x") prZero
        (fun _ _ => HttpResult.exc "x") none "d" 3 fsD =
      Except.ok ⟨none, [], 0, [], fsD, [], 0⟩ := by
  exact ⟨rfl, rfl⟩

/-- Claim C4 witness: a 500-status search response also yields the empty
result and a normally completing run. -/
theorem claim_C4_witness :
    search_items (Except.ok (500, Json.obj [])) = Json.arr [] ∧
    main (Except.ok (500, Json.obj [])) (fun _ => Except.error "x") prZero
        (fun _ _ => HttpResult.exc "x") none "d" 3 fsD =
      Except.ok ⟨none, [], 0, [], fsD, [], 0⟩ := by
  have h := claim_C4_theorem "ConnectionError" (fun _ => Except.error "x") prZero
    (fun _ _ => HttpResult.exc "x") none "d" 3 fsD
  exact ⟨(h.2 500 (Json.obj []) (by decide) (by decide)).1,
    (h.2 500 (Json.obj []) (by decide) (by decide)).2⟩

/-- Claim C5, as amended: a fetch attempt fails with a status error on any
non-200 response, succeeds and writes the streamed body exactly on status
200, and when no attempt answers 200 the destination file is never created
(the filesystem is unchanged). -/
theorem claim_C5_theorem :
    (∀ (code : Nat) (body : List Nat) (path : String) (fs : FS), code ≠ 200 →
        attemptFetch (HttpResult.response code body) path fs =
          (Sum.inr (DlError.statusErr code), fs)) ∧
    (∀ (body : List Nat) (path : String) (fs : FS),
        attemptFetch (HttpResult.response 200 body) path fs =
          (Sum.inl (DownloadOutcome.succeeded path body), fs.write path body)) ∧
    (∀ (fetch : Nat → HttpResult) (url dir : String) (fs : FS) (retries : Nat),
        (∀ i, i < retries → isOk200 (fetch i) = false) →
        (download_file fetch url dir fs retries).2.1 = fs) := by
  refine ⟨?_, ?_, ?_⟩
  · intro code body path fs h
    simp [attemptFetch, h]
  · intro body path fs
    simp [attemptFetch]
  · intro fetch url dir fs retries hfail
    by_cases hex : FS.pathExists fs (pathJoin dir (lastSegment url)) = true
    · simp [download_file, hex]
    · have hall := downloadLoop_allFail fetch url (pathJoin dir (lastSegment url)) retries 0 fs
        none (by intro j hj; simpa using hfail j hj)
      simp [download_file, hex, hall]

/-- Claim C5 counterexample: status 201 is a 2xx response, yet the fetch
attempt records a status error and writes nothing, contradicting the claim
that every 2xx response succeeds and writes the body. -/
theorem claim_C5_counterexample :
    (200 ≤ 201 ∧ 201 < 300) ∧
    attemptFetch (HttpResult.response 201 [7]) "d/f.torrent" (FS.mk ["d"] []) =
      (Sum.inr (DlError.statusErr 201), FS.mk ["d"] []) := by
  exact ⟨⟨by decide, by decide⟩, by decide⟩

/-- Claim C5 witness: a 500 response yields a status error with no write, a
200 response writes the body and succeeds, and an always-500 download leaves
the filesystem unchanged. -/
theorem claim_C5_witness :
    attemptFetch (HttpResult.response 500 [7]) "d/f.torrent" (FS.mk ["d"] []) =
      (Sum.inr (DlError.statusErr 500), FS.mk ["d"] []) ∧
    attemptFetch (HttpResult.response 200 [7]) "d/f.torrent" (FS.mk ["d"] []) =
      (Sum.inl (DownloadOutcome.succeeded "d/f.torrent" [7]),
       FS.write (FS.mk ["d"] []) "d/f.torrent" [7]) ∧
    (download_file (fun _ => HttpResult.response 500 []) "http://x/a.torrent" "d"
        (FS.mk ["d"] []) 3).2.1 = FS.mk ["d"] [] := by
  refine ⟨claim_C5_theorem.1 500 [7] "d/f.torrent" (FS.mk ["d"] []) (by decide),
    claim_C5_theorem.2.1 [7] "d/f.torrent" (FS.mk ["d"] []), ?_⟩
  exact claim_C5_theorem.2.2 (fun _ => HttpResult.response 500 []) "http://x/a.torrent" "d"
    (FS.mk ["d"] []) 3 (fun i _ => rfl)

end IA

namespace IA

/-- Claim C6: a metadata document without a `files` key yields no outcomes,
no downloads, and a warning (not an error); and when the `files` array is
present but no entry survives the torrent-suffix and keyword filters, the
result is likewise empty with a warning and no download attempted. -/
theorem claim_C6_theorem :
    (∀ (status : Nat) (fields : List (String × Json)) (prScore : String → String → Nat)
        (fetch : String → Nat → HttpResult) (identifier : String) (keyword : Option String)
        (dir : String) (retries : Nat) (fs : FS),
      status < 400 →
      List.lookup "files" fields = none →
      download_torrent (Except.ok (status, Json.obj fields)) prScore fetch identifier
          keyword dir retries fs =
        ⟨[], fs, [Ev.warnNoFiles identifier], 0, []⟩) ∧
    (∀ (status : Nat) (fields : List (String × Json)) (entries : List Json)
        (prScore : String → String → Nat) (fetch : String → Nat → HttpResult)
        (identifier : String) (keyword : Option String) (dir : String) (retries : Nat)
        (fs : FS),
      status < 400 →
      List.lookup "files" fields = some (Json.arr entries) →
      torrentFilesOf prScore keyword entries = Except.ok [] →
      download_torrent (Except.ok (status, Json.obj fields)) prScore fetch identifier
          keyword dir retries fs =
        ⟨[], fs, [Ev.warnNoMatch identifier keyword], 0, []⟩) := by
  constructor
  · intro status fields prScore fetch identifier keyword dir retries fs hst hlk
    have hres : resolveTorrents (Except.ok (status, Json.obj fields)) prScore keyword =
        Except.ok none := by
      unfold resolveTorrents
      dsimp only
      rw [if_neg (by omega)]
      simp [jsonMember, hlk]
    simp [download_torrent, hres]
  · intro status fields entries prScore fetch identifier keyword dir retries fs hst hlk htf
    have hres : resolveTorrents (Except.ok (status, Json.obj fields)) prScore keyword =
        Except.ok (some []) := by
      unfold resolveTorrents
      dsimp only
      rw [if_neg (by omega)]
      simp [jsonMember, hlk, jsonIndex, asArr, htf]
    simp [download_torrent, hres, downloadFiles]

/-- Claim C6 witness: a metadata object without `files` gives only the
no-files warning, and a `files` array whose single entry `a.iso` matches
nothing gives only the no-match warning; neither performs a download. -/
theorem claim_C6_witness :
    (List.lookup "files" [("title", Json.str "x")] = none ∧
     download_torrent (Except.ok (200, Json.obj [("title", Json.str "x")])) prZero
         (fun _ _ => HttpResult.exc "x") "id1" none "d" 3 fsD =
       ⟨[], fsD, [Ev.warnNoFiles "id1"], 0, []⟩) ∧
    (torrentFilesOf prZero none [Json.obj [("name", Json.str "a.iso")]] = Except.ok [] ∧
     download_torrent
         (Except.ok (200, Json.obj [("files", Json.arr [Json.obj [("name", Json.str "a.iso")]])]))
         prZero (fun _ _ => HttpResult.exc "x") "id1" none "d" 3 fsD =
       ⟨[], fsD, [Ev.warnNoMatch "id1" none], 0, []⟩) := by
  constructor
  · exact ⟨rfl, claim_C6_theorem.1 200 [("title", Json.str "x")] prZero
      (fun _ _ => HttpResult.exc "x") "id1" none "d" 3 fsD (by decide) rfl⟩
  · exact ⟨rfl, claim_C6_theorem.2 200 [("files", Json.arr [Json.obj [("name", Json.str "a.iso")]])]
      [Json.obj [("name", Json.str "a.iso")]] prZero (fun _ _ => HttpResult.exc "x") "id1" none
      "d" 3 fsD (by decide) rfl rfl⟩

/-- Claim C7, as amended: `main` submits one unit of work per identifier in
submission order, paired with the supplied keyword, advances the progress bar
once per item, and returns `None` -- it does not return (or aggregate) a list
of `DownloadOutcome` values. -/
theorem claim_C7_theorem : ∀ (searchResp : Except String (Nat × Json))
    (metaOf : String → Except String (Nat × Json)) (prScore : String → String → Nat)
    (fetch : String → Nat → HttpResult) (keyword : Option String) (dir : String)
    (retries : Nat) (fs : FS) (r : MainResult),
    main searchResp metaOf prScore fetch keyword dir retries fs = Except.ok r →
    r.ret = none ∧ r.progress = r.submissions.length ∧
    (match asArr (search_items searchResp) with
     | Except.error e => Except.error e
     | Except.ok docs => submittedOf keyword docs) = Except.ok r.submissions := by
  intro searchResp metaOf prScore fetch keyword dir retries fs r h
  unfold main at h
  cases hdocs : asArr (search_items searchResp) with
  | error e => rw [hdocs] at h; exact absurd h (by simp)
  | ok docs =>
    rw [hdocs] at h
    obtain ⟨h1, h2, h3⟩ := mainLoop_ok metaOf prScore fetch keyword dir retries docs fs r h
    exact ⟨h1, h2, h3⟩

/-- Claim C7 counterexample: on a run that processes one file successfully,
the spec-modelled `RunSpec` aggregates one `succeeded` outcome, but the
source `main` returns `None` -- not that list. -/
theorem claim_C7_counterexample :
    Except.map MainResult.ret (main exSearchOk exMetaOk prZero exFetch200 none "d" 3 fsD) =
      Except.ok none ∧
    RunSpec exSearchOk exMetaOk prZero exFetch200 none "d" 3 fsD =
      Except.ok [DownloadOutcome.succeeded "d/a.torrent" [1, 2]] ∧
    (none : Option (List DownloadOutcome)) ≠
      some [DownloadOutcome.succeeded "d/a.torrent" [1, 2]] := by
  exact ⟨rfl, rfl, by decide⟩

/-- Claim C7 witness: the concrete one-item run returns `ret = none`, one
progress advance for its one submission, and the submission list is the
identifier list from the search documents. -/
theorem claim_C7_witness :
    main exSearchOk exMetaOk prZero exFetch200 none "d" 3 fsD = Except.ok exMainRes ∧
    exMainRes.ret = none ∧
    exMainRes.progress = exMainRes.submissions.length ∧
    (match asArr (search_items exSearchOk) with
     | Except.error e => Except.error e
     | Except.ok docs => submittedOf none docs) = Except.ok exMainRes.submissions := by
  have h : main exSearchOk exMetaOk prZero exFetch200 none "d" 3 fsD =
      Except.ok exMainRes := rfl
  obtain ⟨a, b, c⟩ := claim_C7_theorem exSearchOk exMetaOk prZero exFetch200 none "d" 3 fsD
    exMainRes h
  exact ⟨h, a, b, c⟩

/-- Claim C8: when a keyword is supplied, every file name passed to
`download_file` ends with `.torrent` and satisfies `match_terms` at the
default threshold 70 -- no download is enqueued for a non-matching name. -/
theorem claim_C8_theorem : ∀ (metaResp : Except String (Nat × Json))
    (prScore : String → String → Nat) (fetch : String → Nat → HttpResult)
    (identifier kw dir : String) (retries : Nat) (fs : FS) (nm : String),
    nm ∈ (download_torrent metaResp prScore fetch identifier (some kw) dir retries fs).enqueued →
    strEndsWith nm ".torrent" = true ∧ match_terms prScore nm kw 70 = true := by
  intro metaResp prScore fetch identifier kw dir retries fs nm hmem
  unfold download_torrent at hmem
  cases hres : resolveTorrents metaResp prScore (some kw) with
  | error e => rw [hres] at hmem; simp at hmem
  | ok o =>
    rw [hres] at hmem
    cases o with
    | none => simp at hmem
    | some tfs =>
      dsimp only at hmem
      have hmem' : nm ∈ (downloadFiles fetch identifier dir retries fs tfs).enqueued := by
        simpa using hmem
      obtain ⟨f, hf, hname⟩ := downloadFiles_mem fetch identifier dir retries tfs fs nm hmem'
      obtain ⟨entries, htf⟩ := resolveTorrents_some metaResp prScore (some kw) tfs hres
      obtain ⟨nm', hnm', hsf, hmt⟩ := torrentFilesOf_mem prScore kw entries tfs htf f hf
      rw [hname] at hnm'
      injection hnm' with hnm'
      subst hnm'
      exact ⟨hsf, hmt⟩

/-- Claim C8 witness: with keyword `ab` over metadata holding `ab.torrent`
and `cd.torrent`, the name `ab.torrent` is enqueued, and it indeed matches
both the suffix and the keyword. -/
theorem claim_C8_witness :
    "ab.torrent" ∈ (download_torrent exMeta2 prContains exFetch200 "id1" (some "ab") "d" 3
      fsD).enqueued ∧
    strEndsWith "ab.torrent" ".torrent" = true ∧
    match_terms prContains "ab.torrent" "ab" 70 = true := by
  have h := claim_C8_theorem exMeta2 prContains exFetch200 "id1" "ab" "d" 3 fsD
    "ab.torrent" (by decide)
  exact ⟨by decide, h.1, h.2⟩

/-- Claim C9: a keyword that is empty or consists only of whitespace splits
into no terms, so `match_terms` returns true for every candidate text and
threshold -- a blank keyword filters out nothing. -/
theorem claim_C9_theorem : ∀ (prScore : String → String → Nat) (text keyword : String)
    (threshold : Nat),
    (∀ c ∈ keyword.data, c.isWhitespace = true) →
    match_terms prScore text keyword threshold = true := by
  intro prScore text keyword threshold h
  exact match_terms_blank_keyword prScore text keyword threshold h

/-- Claim C9 witness: the all-whitespace keyword `" "` matches any text even
under a scorer that always answers 0. -/
theorem claim_C9_witness :
    (∀ c ∈ (" " : String).data, c.isWhitespace = true) ∧
    match_terms prZero "some-candidate.torrent" " " 70 = true := by
  exact ⟨by decide, claim_C9_theorem prZero "some-candidate.torrent" " " 70 (by decide)⟩

/-- Claim C10, as amended: for a URL ending in `/` the final segment is
empty, the computed destination is the destination folder with a trailing
separator appended -- a path naming the existing destination directory -- so
`download_file` always skips such a URL without any network call. -/
theorem claim_C10_theorem : ∀ (url dir : String) (fs : FS) (fetch : Nat → HttpResult)
    (retries : Nat),
    hasTrailingSlash url = true →
    dir.data ≠ [] →
    hasTrailingSlash dir = false →
    FS.isDir fs dir = true →
    lastSegment url = "" ∧
    pathJoin dir (lastSegment url) = dir ++ "/" ∧
    download_file fetch url dir fs retries = (DownloadOutcome.skipped (dir ++ "/"), fs, 0) := by
  intro url dir fs fetch retries hurl hne hts hdir
  have hseg := lastSegment_slash url hurl
  have hjoin : pathJoin dir (lastSegment url) = dir ++ "/" := by
    rw [hseg]
    exact pathJoin_empty_right dir hne hts
  have hex : FS.pathExists fs (pathJoin dir (lastSegment url)) = true := by
    rw [hjoin]
    exact pathExists_dirSlash fs dir hne hts hdir
  refine ⟨hseg, hjoin, ?_⟩
  have h1 : download_file fetch url dir fs retries =
      (DownloadOutcome.skipped (pathJoin dir (lastSegment url)), fs, 0) := by
    simp [download_file, hex]
  rw [h1, hjoin]

/-- Claim C10 counterexample: for the default destination folder and a URL
ending in `/`, the computed path is `torrent_files/` -- the folder name with
a trailing separator -- which is not string-equal to the destination folder
itself as the claim states. -/
theorem claim_C10_counterexample :
    pathJoin "torrent_files" (lastSegment "https://archive.org/download/item/") =
      "torrent_files/" ∧
    ("torrent_files/" : String) ≠ "torrent_files" := by
  exact ⟨by decide, by decide⟩

/-- Claim C10 witness: a URL ending in `/` is skipped with zero network calls
when the destination directory exists. -/
theorem claim_C10_witness :
    (hasTrailingSlash "https://archive.org/download/x/" = true ∧
     FS.isDir (FS.mk ["torrent_files"] []) "torrent_files" = true) ∧
    lastSegment "https://archive.org/download/x/" = "" ∧
    pathJoin "torrent_files" (lastSegment "https://archive.org/download/x/") =
      "torrent_files" ++ "/" ∧
    download_file (fun _ => HttpResult.exc "net") "https://archive.org/download/x/"
        "torrent_files" (FS.mk ["torrent_files"] []) 3 =
      (DownloadOutcome.skipped ("torrent_files" ++ "/"), FS.mk ["torrent_files"] [], 0) := by
  refine ⟨⟨by decide, by decide⟩, ?_⟩
  exact claim_C10_theorem "https://archive.org/download/x/" "torrent_files"
    (FS.mk ["torrent_files"] []) (fun _ => HttpResult.exc "net") 3
    (by decide) (by decide) (by decide) (by decide)

end IA
